import Mathlib

/-!
Verification of the spaced-repetition scheduler
(`src/services/spacedRepetitionService.ts`) of the Adaptive-Teleprompter
repository, against its natural-language specification.

Modelling conventions for the shallow embedding:
* JavaScript numbers holding integral values (scores, counts, day counts,
  millisecond timestamps) are modelled as `Int`; the two places where the
  source divides numbers (`Math.floor`, `Math.ceil` on quotients, and the
  `onPace` comparison) are modelled with exact integer or rational
  arithmetic, which agrees with IEEE doubles on all realistic magnitudes.
* `Date` values are modelled as milliseconds on a local-time axis with
  uniform 86400000-ms days (no DST); `setDate(getDate()+1)` followed by
  `setHours(0,0,0,0)` is modelled by explicit calendar-field operations on
  a (day index, ms-within-day) decomposition.
* The persistence layer (`databaseService.ts`, not part of the scheduler)
  is modelled by passing the fetched collections as explicit arguments and
  returning the values that would be written.
* `Array.prototype.sort` with the difficulty comparator is modelled by a
  stable insertion sort (JS engines implement a stable sort);
  `Array.prototype.slice(0, end)` including its negative-`end` semantics is
  modelled by `jsSlice`.
-/

-- ============================================
-- Data model (from src/types usage in the service)
-- ============================================

inductive Difficulty where
  | easy
  | medium
  | hard
deriving DecidableEq

inductive ProblemStatus where
  | new
  | learning
  | mastered
deriving DecidableEq

structure BlindProblem where
  title : String
  difficulty : Difficulty
  problemGroup : Option String
deriving DecidableEq

structure UserProblemProgress where
  problemTitle : String
  status : ProblemStatus
  bestScore : Int
  reviewsNeeded : Int
  reviewsCompleted : Int
  lastReviewedAt : Option Int
  nextReviewAt : Option Int
deriving DecidableEq

structure UserStudySettings where
  userId : String
  targetDays : Int
  dailyCap : Int
  easyBonus : Int
  startDate : Int
deriving DecidableEq

/-- The `Omit<UserStudySettings, userId>` shape used by `DEFAULT_SETTINGS`
and by the upsert patch of `getSettingsWithDefaults`. -/
structure StudyDefaults where
  targetDays : Int
  dailyCap : Int
  easyBonus : Int
  startDate : Int
deriving DecidableEq

structure TodaysQueue where
  newProblems : Int
  reviews : Int
  total : Int
deriving DecidableEq

structure StudyStats where
  totalProblems : Int
  newCount : Int
  learningCount : Int
  masteredCount : Int
  dueToday : Int
  dueTomorrow : Int
  daysLeft : Int
  onPace : Bool
  todaysQueue : TodaysQueue
deriving DecidableEq

-- ============================================
-- Constants
-- ============================================

def TOTAL_BLIND_75 : Int := 75

/-- The source constant `DEFAULT_SETTINGS` is a module-level constant whose `startDate` field is
`new Date()` evaluated once, when the module is initialised; the embedding
makes that initialisation instant an explicit parameter. -/
def DEFAULT_SETTINGS (moduleLoadTime : Int) : StudyDefaults :=
  { targetDays := 10, dailyCap := 15, easyBonus := 10, startDate := moduleLoadTime }

def DIFFICULTY_ADJUSTMENTS : Difficulty → Int
  | .easy => 10
  | .medium => 0
  | .hard => -5

-- ============================================
-- Review policy
-- ============================================

def calculateReviewsNeeded (score : Int) (difficulty : Difficulty) (easyBonus : Int) : Int :=
  let adjustment := if difficulty = .easy then easyBonus else DIFFICULTY_ADJUSTMENTS difficulty
  let adjustedScore := score + adjustment
  if adjustedScore ≥ 85 then 0
  else if adjustedScore ≥ 75 then 1
  else if adjustedScore ≥ 50 then 2
  else 3

def determineStatus (reviewsCompleted reviewsNeeded : Int) : ProblemStatus :=
  if reviewsNeeded = 0 ∨ reviewsCompleted ≥ reviewsNeeded then .mastered else .learning

-- ============================================
-- Settings manager
-- ============================================

/-- Model of `getSettingsWithDefaults`.  Here `fetched` is the result of
`fetchUserStudySettings`; the second component of the result is the patch
handed to `upsertUserStudySettings` (`none` when nothing is written).
`callTime` is the instant of the call; the source body never reads the
clock — the only `Date` involved is the one captured in `DEFAULT_SETTINGS`
at module initialisation. -/
def getSettingsWithDefaults (fetched : Option UserStudySettings) (userId : String)
    (moduleLoadTime : Int) (callTime : Int) : UserStudySettings × Option (String × StudyDefaults) :=
  match fetched with
  | some s => (s, none)
  | none =>
      let d := DEFAULT_SETTINGS moduleLoadTime
      ({ userId := userId, targetDays := d.targetDays, dailyCap := d.dailyCap,
         easyBonus := d.easyBonus, startDate := d.startDate },
       some (userId, d))

-- ============================================
-- Local dates (uniform-day model of JS Date mutation)
-- ============================================

def msPerDay : Int := 86400000

structure JsLocalDate where
  days : Int
  msInDay : Int
deriving DecidableEq

def jsDateFromMs (t : Int) : JsLocalDate := ⟨t / msPerDay, t % msPerDay⟩

def jsToMs (d : JsLocalDate) : Int := d.days * msPerDay + d.msInDay

/-- Model of `setDate(getDate() + n)` in the uniform-day model. -/
def jsAddDays (d : JsLocalDate) (n : Int) : JsLocalDate := { d with days := d.days + n }

/-- Model of `setHours(0, 0, 0, 0)`. -/
def jsSetMidnight (d : JsLocalDate) : JsLocalDate := { d with msInDay := 0 }

/-- The timestamp the source stores in `nextReviewAt` while still learning:
`new Date()` advanced by one calendar day and truncated to midnight. -/
def jsNextMidnight (now : Int) : Int :=
  jsToMs (jsSetMidnight (jsAddDays (jsDateFromMs now) 1))

-- ============================================
-- Progress tracker
-- ============================================

/-- Pure core of `updateProgressAfterAttempt`: the record handed to
`upsertUserProblemProgress`.  `easyBonus` comes from the settings loaded at
the top of the function; `existingProgress` is the caller-provided prior
record.  `p.bestScore` and `p.reviewsCompleted` pass through JavaScript
truthiness tests (`?.bestScore ? … : …`, `?.reviewsCompleted || 0`), under
which the value `0` behaves like an absent record. -/
def updateProgressAfterAttempt (easyBonus : Int) (problemTitle : String) (score : Int)
    (difficulty : Difficulty) (existingProgress : Option UserProblemProgress)
    (now : Int) : UserProblemProgress :=
  let reviewsNeeded := calculateReviewsNeeded score difficulty easyBonus
  let previousReviews :=
    match existingProgress with
    | some p => if p.reviewsCompleted = 0 then 0 else p.reviewsCompleted
    | none => 0
  let newReviewsCompleted := previousReviews + 1
  let newStatus := determineStatus newReviewsCompleted reviewsNeeded
  let nextReviewAt : Option Int :=
    if newStatus = .learning then some (jsNextMidnight now) else none
  let bestScore :=
    match existingProgress with
    | some p => if p.bestScore = 0 then score else max p.bestScore score
    | none => score
  { problemTitle := problemTitle, status := newStatus, bestScore := bestScore,
    reviewsNeeded := reviewsNeeded, reviewsCompleted := newReviewsCompleted,
    lastReviewedAt := some now, nextReviewAt := nextReviewAt }

-- ============================================
-- Migration helper
-- ============================================

/-- The progress records `migrateFromLocalStorage` synthesises and hands to
`batchUpsertUserProgress` (the source items carry no `lastReviewedAt`). -/
def migrationProgressItems (masteredIds : List String) (now : Int) : List UserProblemProgress :=
  masteredIds.map fun title =>
    { problemTitle := title, status := .mastered, bestScore := 85,
      reviewsNeeded := 1, reviewsCompleted := 1,
      lastReviewedAt := none, nextReviewAt := some now }

-- ============================================
-- String helpers used by the topic filter
-- ============================================

/-- Model of `toLowerCase()`; the strings involved are ASCII, where JS and
`Char.toLower` agree. -/
def lowerStr (s : String) : String := ⟨s.data.map Char.toLower⟩

/-- Does `hay` start with `needle`? (helper for `jsIncludes`). -/
def strStarts : List Char → List Char → Bool
  | [], _ => true
  | _ :: _, [] => false
  | c :: cs, d :: ds => c = d && strStarts cs ds

def strContainsAux (needle : List Char) : List Char → Bool
  | [] => strStarts needle []
  | c :: rest => strStarts needle (c :: rest) || strContainsAux needle rest

/-- Model of `hay.includes(needle)` on JavaScript strings. -/
def jsIncludes (hay needle : String) : Bool := strContainsAux needle.data hay.data

/-- Model of `replace` with the global whitespace-run regex: each maximal
whitespace run becomes one underscore.  The flag records whether the previous character was
whitespace. -/
def collapseWsAux : Bool → List Char → List Char
  | _, [] => []
  | prev, c :: rest =>
      if c.isWhitespace then
        if prev then collapseWsAux true rest else '_' :: collapseWsAux true rest
      else c :: collapseWsAux false rest

def collapseWs (s : String) : String := ⟨collapseWsAux false s.data⟩

/-- Model of `split` at underscores on the character list (JS splits the
empty string into one empty token). -/
def splitUnderscore : List Char → List (List Char)
  | [] => [[]]
  | c :: rest =>
      let r := splitUnderscore rest
      if c = '_' then [] :: r
      else
        match r with
        | [] => [[c]]
        | w :: ws => (c :: w) :: ws

/-- Model of `word.charAt(0).toUpperCase() + word.slice(1)`. -/
def capitalizeWord : List Char → List Char
  | [] => []
  | c :: rest => c.toUpper :: rest

/-- Model of `join` with a single-space separator. -/
def joinWords : List (List Char) → List Char
  | [] => []
  | [w] => w
  | w :: ws => w ++ ' ' :: joinWords ws

/-- Model of `formatGroupName`: split on underscores, title-case each token, join
with spaces. -/
def formatGroupName (name : String) : String :=
  ⟨joinWords ((splitUnderscore name.data).map capitalizeWord)⟩

/-- The predicate of the topic-filter `filter` callback in
`buildSpacedRepetitionQueue`. -/
def matchesTopic (topicFilter : String) (p : BlindProblem) : Bool :=
  let normalizedFilter := collapseWs (lowerStr topicFilter)
  let pg := p.problemGroup.getD ""
  let problemGroup := collapseWs (lowerStr pg)
  let formattedGroup := lowerStr (formatGroupName pg)
  jsIncludes problemGroup normalizedFilter ||
  jsIncludes (lowerStr formattedGroup) (lowerStr topicFilter) ||
  jsIncludes (lowerStr topicFilter) problemGroup

-- ============================================
-- JS array operations used by the queue builder
-- ============================================

/-- Model of `Math.ceil(a / b)` for an integer quotient with `0 < b`. -/
def jsCeil (a b : Int) : Int := -((-a) / b)

/-- Model of `Array.prototype.slice(0, e)`, including the negative-`e` semantics
(`e < 0` counts from the end of the array). -/
def jsSlice {α : Type} (l : List α) (e : Int) : List α :=
  if e < 0 then l.take ((l.length + e).toNat) else l.take e.toNat

def diffOrder : Difficulty → Nat
  | .easy => 0
  | .medium => 1
  | .hard => 2

/-- Insert one element into a difficulty-sorted list, after strictly easier
elements and before equal-or-harder ones (so the overall sort is stable). -/
def insertByDifficulty (p : BlindProblem) : List BlindProblem → List BlindProblem
  | [] => [p]
  | q :: rest =>
      if diffOrder q.difficulty < diffOrder p.difficulty then q :: insertByDifficulty p rest
      else p :: q :: rest

/-- The stable `sort` by the comparator
`diffOrder[a.difficulty] - diffOrder[b.difficulty]`. -/
def sortByDifficulty (l : List BlindProblem) : List BlindProblem :=
  l.foldr insertByDifficulty []

-- ============================================
-- Queue builder
-- ============================================

/-- All the data `buildSpacedRepetitionQueue` fetches before computing:
settings, the progress records of the user, the due-today and due-tomorrow
sets, the catalog, the optional topic filter and the current time. -/
structure QueueInput where
  settings : UserStudySettings
  allProgress : List UserProblemProgress
  dueReviews : List UserProblemProgress
  dueTomorrow : List UserProblemProgress
  catalog : List BlindProblem
  topicFilter : Option String
  now : Int

/-- The catalog after the topic filter (`topicFilter && topicFilter !==
"all_mastered"` in the source; the empty string is falsy). -/
def filteredProblems (inp : QueueInput) : List BlindProblem :=
  match inp.topicFilter with
  | some f =>
      if f ≠ "" ∧ f ≠ "all_mastered" then inp.catalog.filter (matchesTopic f)
      else inp.catalog
  | none => inp.catalog

/-- The key set of `progressMap`. -/
def progressTitles (inp : QueueInput) : List String :=
  inp.allProgress.map (·.problemTitle)

def daysPassedOf (inp : QueueInput) : Int :=
  (inp.now - inp.settings.startDate) / msPerDay

def daysLeftOf (inp : QueueInput) : Int :=
  max 1 (inp.settings.targetDays - daysPassedOf inp)

def filteredProgressOf (inp : QueueInput) : List UserProblemProgress :=
  inp.allProgress.filter fun p =>
    (filteredProblems inp).any fun prob => prob.title == p.problemTitle

def introducedCountOf (inp : QueueInput) : Nat :=
  ((filteredProgressOf inp).filter fun p => p.status != ProblemStatus.new).length

def remainingNewOf (inp : QueueInput) : Int :=
  ((filteredProblems inp).length : Int) - introducedCountOf inp

def effectiveDaysLeftOf (inp : QueueInput) : Int :=
  max 1 (daysLeftOf inp - 2)

def newPerDayOf (inp : QueueInput) : Int :=
  jsCeil (remainingNewOf inp) (effectiveDaysLeftOf inp)

/-- The list `dueProblems`, reduced to the catalog problems (the paired
progress record is only used for its count, which equals the length of
this list). -/
def duePoolOf (inp : QueueInput) : List BlindProblem :=
  ((inp.dueReviews.filter fun p =>
      (filteredProblems inp).any fun prob => prob.title == p.problemTitle).filter
    fun p => p.reviewsCompleted < p.reviewsNeeded).filterMap
    fun progress => (filteredProblems inp).find? fun p => p.title == progress.problemTitle

/-- The `for … break` loop appending due reviews while under the cap. -/
def fillDue (cap : Int) (acc : List BlindProblem) : List BlindProblem → List BlindProblem
  | [] => acc
  | p :: rest =>
      if cap ≤ (acc.length : Int) then acc else fillDue cap (acc ++ [p]) rest

def duePartOf (inp : QueueInput) : List BlindProblem :=
  fillDue inp.settings.dailyCap [] (duePoolOf inp)

def newProblemsSortedOf (inp : QueueInput) : List BlindProblem :=
  sortByDifficulty ((filteredProblems inp).filter fun p => !(progressTitles inp).contains p.title)

def slotsForNewOf (inp : QueueInput) : Int :=
  min (newPerDayOf inp) (inp.settings.dailyCap - (duePartOf inp).length)

def newPartOf (inp : QueueInput) : List BlindProblem :=
  jsSlice (newProblemsSortedOf inp) (slotsForNewOf inp)

def queueOf (inp : QueueInput) : List BlindProblem :=
  duePartOf inp ++ newPartOf inp

/-- Model of `fullAllProgress.length >= daysPassed * (TOTAL_BLIND_75 /
settings.targetDays)` with exact rational arithmetic. -/
def onPaceOf (inp : QueueInput) : Bool :=
  decide ((inp.allProgress.length : ℚ) ≥
    (daysPassedOf inp : ℚ) * ((TOTAL_BLIND_75 : ℚ) / (inp.settings.targetDays : ℚ)))

def statsOf (inp : QueueInput) : StudyStats :=
  { totalProblems := TOTAL_BLIND_75,
    newCount := TOTAL_BLIND_75 - inp.allProgress.length,
    learningCount := (inp.allProgress.filter fun p => p.status == ProblemStatus.learning).length,
    masteredCount := (inp.allProgress.filter fun p => p.status == ProblemStatus.mastered).length,
    dueToday := inp.dueReviews.length,
    dueTomorrow := inp.dueTomorrow.length,
    daysLeft := daysLeftOf inp,
    onPace := onPaceOf inp,
    todaysQueue :=
      { newProblems := min (slotsForNewOf inp) ((newProblemsSortedOf inp).length : Int),
        reviews := min ((duePoolOf inp).length : Int) inp.settings.dailyCap,
        total := (queueOf inp).length } }

def buildSpacedRepetitionQueue (inp : QueueInput) : List BlindProblem × StudyStats :=
  (queueOf inp, statsOf inp)

-- ============================================
-- Reference definitions taken from the specification text
-- ============================================

/-- Reference review count, following the words of the spec: adjustment
(+easyBonus / 0 / −5), unclamped adjusted score, thresholds 85/75/50
evaluated top-down. -/
def specReviewsNeeded (score : Int) (d : Difficulty) (easyBonus : Int) : Int :=
  let adjusted := score + (match d with | .easy => easyBonus | .medium => 0 | .hard => -5)
  if 85 ≤ adjusted then 0
  else if 75 ≤ adjusted then 1
  else if 50 ≤ adjusted then 2
  else 3

/-- Midnight at the start of the calendar day after the one containing
`now`, in the uniform-day local-time model. -/
def startOfFollowingDay (now : Int) : Int := (now / msPerDay + 1) * msPerDay

/-- Reference pace values, following the words of the spec:
`floor((now − startDate) / 1 day)` as a mathematical floor. -/
def specDaysPassed (now startDate : Int) : Int := ⌊((now - startDate : Int) : ℚ) / (msPerDay : ℚ)⌋

/-- Reference `ceil(a / b)` as a mathematical ceiling. -/
def specCeilDiv (a b : Int) : Int := ⌈(a : ℚ) / (b : ℚ)⌉

-- ============================================
-- Arithmetic helper lemmas
-- ============================================

theorem floor_ratCast_div_eq_ediv (a b : ℤ) (hb : 0 < b) : ⌊(a : ℚ) / (b : ℚ)⌋ = a / b := by
  have hb0 : ((b.toNat : ℕ) : ℤ) = b := Int.toNat_of_nonneg hb.le
  have hq : ((b : ℚ)) = ((b.toNat : ℕ) : ℚ) := by exact_mod_cast hb0.symm
  rw [hq, Rat.floor_intCast_div_natCast, hb0]

theorem ceil_ratCast_div_eq_jsCeil (a b : ℤ) (hb : 0 < b) : ⌈(a : ℚ) / (b : ℚ)⌉ = jsCeil a b := by
  have h : ((a : ℚ)) / (b : ℚ) = -(((-a : ℤ) : ℚ) / (b : ℚ)) := by push_cast; ring
  rw [h, Int.ceil_neg, floor_ratCast_div_eq_ediv (-a) b hb, jsCeil]

-- ============================================
-- Claim C1
-- ============================================

/-- C1: `calculateReviewsNeeded` agrees everywhere with the reference
definition (difficulty adjustment, unclamped adjusted score, thresholds
85/75/50 top-down), and its result is always one of 0, 1, 2, 3. -/
theorem spec_C1 (score : Int) (difficulty : Difficulty) (easyBonus : Int) :
    calculateReviewsNeeded score difficulty easyBonus =
      specReviewsNeeded score difficulty easyBonus ∧
    (calculateReviewsNeeded score difficulty easyBonus = 0 ∨
     calculateReviewsNeeded score difficulty easyBonus = 1 ∨
     calculateReviewsNeeded score difficulty easyBonus = 2 ∨
     calculateReviewsNeeded score difficulty easyBonus = 3) := by
  cases difficulty <;>
    simp only [calculateReviewsNeeded, specReviewsNeeded, DIFFICULTY_ADJUSTMENTS,
      reduceCtorEq, if_true, if_false, reduceIte] <;>
    split_ifs <;> simp_all <;> omega

-- ============================================
-- Claim C5
-- ============================================

/-- C5: every record the system writes satisfies the status invariant —
`updateProgressAfterAttempt` stores exactly
`determineStatus reviewsCompleted reviewsNeeded` for the values it stores,
and every record synthesised by the localStorage migration
(status mastered, reviewsNeeded 1, reviewsCompleted 1) satisfies it too. -/
theorem spec_C5 :
    (∀ (easyBonus : Int) (title : String) (score : Int) (d : Difficulty)
        (existing : Option UserProblemProgress) (now : Int),
      (updateProgressAfterAttempt easyBonus title score d existing now).status =
        determineStatus
          (updateProgressAfterAttempt easyBonus title score d existing now).reviewsCompleted
          (updateProgressAfterAttempt easyBonus title score d existing now).reviewsNeeded) ∧
    (∀ (masteredIds : List String) (now : Int),
      ((migrationProgressItems masteredIds now).all fun r =>
        r.status == determineStatus r.reviewsCompleted r.reviewsNeeded) = true) := by
  constructor
  · intro easyBonus title score d existing now
    rfl
  · intro masteredIds now
    simp [migrationProgressItems, List.all_eq_true, determineStatus]

-- ============================================
-- Claim C6
-- ============================================

/-- C6: the record written by `updateProgressAfterAttempt` carries
`nextReviewAt = ` midnight at the start of the following calendar day when
the resulting status is learning, and `nextReviewAt = none` when it is
mastered; the JS date mutation (`setDate(+1)`, `setHours(0,0,0,0)`) indeed
lands on that midnight; and a first attempt with score 90 and medium
difficulty yields reviewsNeeded 0, status mastered, nextReviewAt none. -/
theorem spec_C6 (easyBonus : Int) (title : String) (score : Int) (d : Difficulty)
    (existing : Option UserProblemProgress) (now : Int) :
    ((updateProgressAfterAttempt easyBonus title score d existing now).status =
        ProblemStatus.learning →
      (updateProgressAfterAttempt easyBonus title score d existing now).nextReviewAt =
        some (startOfFollowingDay now)) ∧
    ((updateProgressAfterAttempt easyBonus title score d existing now).status =
        ProblemStatus.mastered →
      (updateProgressAfterAttempt easyBonus title score d existing now).nextReviewAt = none) ∧
    jsNextMidnight now = startOfFollowingDay now ∧
    ((updateProgressAfterAttempt easyBonus title 90 Difficulty.medium none now).reviewsNeeded = 0 ∧
     (updateProgressAfterAttempt easyBonus title 90 Difficulty.medium none now).status =
       ProblemStatus.mastered ∧
     (updateProgressAfterAttempt easyBonus title 90 Difficulty.medium none now).nextReviewAt =
       none) := by
  have hmid : jsNextMidnight now = startOfFollowingDay now := by
    simp [jsNextMidnight, jsToMs, jsSetMidnight, jsAddDays, jsDateFromMs, startOfFollowingDay]
  have hfield : (updateProgressAfterAttempt easyBonus title score d existing now).nextReviewAt =
      if (updateProgressAfterAttempt easyBonus title score d existing now).status =
        ProblemStatus.learning then some (jsNextMidnight now) else none := rfl
  refine ⟨?_, ?_, hmid, rfl, rfl, rfl⟩
  · intro h
    rw [hfield, if_pos h, hmid]
  · intro h
    rw [hfield, if_neg (by rw [h]; exact fun hc => ProblemStatus.noConfusion hc)]

/-- Witness for C6 at a concrete learning-status input: score 60, easy with
bonus 10 adjusts to 70, so two reviews are needed and the first attempt
leaves the problem learning, scheduled for the next midnight. -/
theorem spec_C6_witness :
    (updateProgressAfterAttempt 10 "Two Sum" 60 Difficulty.easy none 0).nextReviewAt =
      some (startOfFollowingDay 0) :=
  (spec_C6 10 "Two Sum" 60 Difficulty.easy none 0).1 (by decide)

-- ============================================
-- Claim C8
-- ============================================

/-- C8: for fixed difficulty and easyBonus, `calculateReviewsNeeded` is
monotonically non-increasing in score; and at the default easyBonus of 10
(the value the two-argument call supplies), easy is at least as lenient as
medium, which is at least as lenient as hard. -/
theorem spec_C8 :
    (∀ (d : Difficulty) (easyBonus s1 s2 : Int), s1 ≤ s2 →
      calculateReviewsNeeded s2 d easyBonus ≤ calculateReviewsNeeded s1 d easyBonus) ∧
    (∀ s : Int,
      calculateReviewsNeeded s Difficulty.easy 10 ≤ calculateReviewsNeeded s Difficulty.medium 10 ∧
      calculateReviewsNeeded s Difficulty.medium 10 ≤
        calculateReviewsNeeded s Difficulty.hard 10) := by
  constructor
  · intro d easyBonus s1 s2 h
    cases d <;>
      simp only [calculateReviewsNeeded, DIFFICULTY_ADJUSTMENTS, reduceCtorEq,
        if_true, if_false, reduceIte] <;>
      split_ifs <;> omega
  · intro s
    constructor <;>
      simp only [calculateReviewsNeeded, DIFFICULTY_ADJUSTMENTS, reduceCtorEq,
        if_true, if_false, reduceIte] <;>
      split_ifs <;> omega

/-- Witness for C8: monotonicity applied at scores 80 ≤ 90 on easy with the
default bonus. -/
theorem spec_C8_witness :
    calculateReviewsNeeded 90 Difficulty.easy 10 ≤ calculateReviewsNeeded 80 Difficulty.easy 10 :=
  spec_C8.1 Difficulty.easy 10 80 90 (by decide)

-- ============================================
-- Claim C9
-- ============================================

/-- C9 as stated is false: with the module initialised at time 0 and the
first settings read happening at time 86400000, the returned settings carry
startDate 0 — the module-initialisation time captured in
`DEFAULT_SETTINGS` — not the time of the call. -/
theorem spec_C9_cex :
    (getSettingsWithDefaults none "u" 0 86400000).1.startDate = 0 ∧
    (getSettingsWithDefaults none "u" 0 86400000).1.startDate ≠ 86400000 := by
  constructor <;> decide

/-- C9 amended: on a first read with no stored settings, the function
persists and returns settings bound to the user with targetDays 10,
dailyCap 15, easyBonus 10, and startDate equal to the time the
`DEFAULT_SETTINGS` module constant was initialised, whatever the call time is. -/
theorem spec_C9 (userId : String) (moduleLoadTime callTime : Int) :
    getSettingsWithDefaults none userId moduleLoadTime callTime =
      ({ userId := userId, targetDays := 10, dailyCap := 15, easyBonus := 10,
         startDate := moduleLoadTime },
       some (userId, DEFAULT_SETTINGS moduleLoadTime)) := rfl

-- ============================================
-- Claim C7
-- ============================================

/-- C7 as stated is false: the filter string "Arrays & Hashing" normalises
to "arrays_&_hashing", whose ampersand defeats all three substring checks
against the group "arrays_hashing" (raw normalised group, prettified label
"Arrays Hashing", and the reverse containment), so the problem is dropped
by the topic filter and the queue built under that filter is empty. -/
theorem spec_C7_cex :
    matchesTopic "Arrays & Hashing" ⟨"Two Sum", Difficulty.easy, some "arrays_hashing"⟩ = false ∧
    (buildSpacedRepetitionQueue
      ⟨⟨"u", 10, 15, 10, 0⟩, [], [], [],
        [⟨"Two Sum", Difficulty.easy, some "arrays_hashing"⟩],
        some "Arrays & Hashing", 0⟩).1 = [] := by
  constructor <;> decide

/-- C7 amended: the comparison is case-insensitive,
whitespace-run-vs-underscore-insensitive and substring-tolerant in both
directions, but not punctuation-insensitive: an ampersand-free filter such
as "Arrays Hashing" (or "arrays_hashing", "ARRAYS  HASHING", the substring
"Arrays", or a longer string containing "arrays_hashing") retains a
catalog problem whose problemGroup is "arrays_hashing", while
"Arrays & Hashing" does not. -/
theorem spec_C7 :
    matchesTopic "Arrays Hashing" ⟨"Two Sum", Difficulty.easy, some "arrays_hashing"⟩ = true ∧
    matchesTopic "arrays_hashing" ⟨"Two Sum", Difficulty.easy, some "arrays_hashing"⟩ = true ∧
    matchesTopic "ARRAYS  HASHING" ⟨"Two Sum", Difficulty.easy, some "arrays_hashing"⟩ = true ∧
    matchesTopic "Arrays" ⟨"Two Sum", Difficulty.easy, some "arrays_hashing"⟩ = true ∧
    matchesTopic "all arrays_hashing problems"
      ⟨"Two Sum", Difficulty.easy, some "arrays_hashing"⟩ = true ∧
    (buildSpacedRepetitionQueue
      ⟨⟨"u", 10, 15, 10, 0⟩, [], [], [],
        [⟨"Two Sum", Difficulty.easy, some "arrays_hashing"⟩],
        some "Arrays Hashing", 0⟩).1 =
      [⟨"Two Sum", Difficulty.easy, some "arrays_hashing"⟩] := by
  refine ⟨?_, ?_, ?_, ?_, ?_, ?_⟩ <;> decide

-- ============================================
-- Structural lemmas about the queue builder
-- ============================================

theorem fillDue_eq_take (cap : Int) :
    ∀ (l acc : List BlindProblem), fillDue cap acc l = acc ++ l.take (cap - acc.length).toNat := by
  intro l
  induction l with
  | nil => intro acc; simp [fillDue]
  | cons p rest ih =>
      intro acc
      rw [fillDue]
      by_cases h : cap ≤ (acc.length : Int)
      · rw [if_pos h]
        have h0 : (cap - acc.length).toNat = 0 := by omega
        simp [h0]
      · rw [if_neg h, ih]
        have h2 : (cap - ((acc ++ [p]).length : Int)).toNat + 1 = (cap - (acc.length : Int)).toNat := by
          simp only [List.length_append, List.length_cons, List.length_nil]
          omega
        rw [← h2, List.take_succ_cons, List.append_assoc, List.singleton_append]

theorem duePart_eq_take (inp : QueueInput) :
    duePartOf inp = (duePoolOf inp).take inp.settings.dailyCap.toNat := by
  rw [duePartOf, fillDue_eq_take]
  simp

theorem jsCeil_nonneg (a b : Int) (ha : 0 ≤ a) (hb : 0 < b) : 0 ≤ jsCeil a b := by
  unfold jsCeil
  have h := Int.ediv_le_ediv hb (show -a ≤ (0 : Int) by omega)
  rw [Int.zero_ediv] at h
  omega

theorem nodup_length_le {l1 l2 : List String} (h1 : l1.Nodup) (h2 : ∀ x ∈ l1, x ∈ l2) :
    l1.length ≤ l2.length := by
  calc l1.length = l1.toFinset.card := (List.toFinset_card_of_nodup h1).symm
    _ ≤ l2.toFinset.card := by
        refine Finset.card_le_card fun x hx => ?_
        rw [List.mem_toFinset] at hx ⊢
        exact h2 x hx
    _ ≤ l2.length := List.toFinset_card_le l2

theorem remainingNew_nonneg (inp : QueueInput)
    (hnd : (inp.allProgress.map (·.problemTitle)).Nodup) : 0 ≤ remainingNewOf inp := by
  have hsl : (((filteredProgressOf inp).filter fun p =>
      p.status != ProblemStatus.new).map (·.problemTitle)).Sublist
      (inp.allProgress.map (·.problemTitle)) := by
    refine List.Sublist.map _ ?_
    exact ((List.filter_sublist _).trans (List.filter_sublist _))
  have h1 : (((filteredProgressOf inp).filter fun p =>
      p.status != ProblemStatus.new).map (·.problemTitle)).Nodup := hnd.sublist hsl
  have h2 : ∀ t ∈ (((filteredProgressOf inp).filter fun p =>
      p.status != ProblemStatus.new).map (·.problemTitle)),
      t ∈ (filteredProblems inp).map (·.title) := by
    intro t ht
    rw [List.mem_map] at ht
    obtain ⟨p, hp, hpt⟩ := ht
    have hp1 : p ∈ filteredProgressOf inp := (List.mem_filter.mp hp).1
    have hp2 := (List.mem_filter.mp hp1).2
    rw [List.any_eq_true] at hp2
    obtain ⟨prob, hprob, hbeq⟩ := hp2
    rw [beq_iff_eq] at hbeq
    exact List.mem_map.mpr ⟨prob, hprob, by rw [hbeq, hpt]⟩
  have := nodup_length_le h1 h2
  simp only [List.length_map] at this
  unfold remainingNewOf introducedCountOf
  omega

theorem insertByDifficulty_perm (p : BlindProblem) (l : List BlindProblem) :
    (insertByDifficulty p l).Perm (p :: l) := by
  induction l with
  | nil => exact List.Perm.refl _
  | cons q rest ih =>
      rw [insertByDifficulty]
      by_cases h : diffOrder q.difficulty < diffOrder p.difficulty
      · rw [if_pos h]
        exact (ih.cons q).trans (List.Perm.swap p q rest)
      · rw [if_neg h]

theorem sortByDifficulty_perm (l : List BlindProblem) : (sortByDifficulty l).Perm l := by
  induction l with
  | nil => exact List.Perm.refl _
  | cons p rest ih =>
      have : sortByDifficulty (p :: rest) = insertByDifficulty p (sortByDifficulty rest) := rfl
      rw [this]
      exact (insertByDifficulty_perm p _).trans (ih.cons p)

/-- Every problem of `newPartOf` is absent from the progress map. -/
theorem newPart_not_in_progress (inp : QueueInput) :
    ∀ p ∈ newPartOf inp, p.title ∉ progressTitles inp := by
  intro p hp hmem
  have h1 : p ∈ newProblemsSortedOf inp := by
    have : (newPartOf inp).Sublist (newProblemsSortedOf inp) := by
      unfold newPartOf jsSlice
      split
      · exact List.take_sublist _ _
      · exact List.take_sublist _ _
    exact this.subset hp
  have h2 : p ∈ (filteredProblems inp).filter fun q => !(progressTitles inp).contains q.title := by
    have := (sortByDifficulty_perm _).mem_iff.mp h1
    exact this
  have h3 := (List.mem_filter.mp h2).2
  rw [Bool.not_eq_true'] at h3
  have : (progressTitles inp).contains p.title = true := by
    rw [List.contains]
    exact List.elem_iff.mpr hmem
  rw [this] at h3
  exact Bool.noConfusion h3

-- ============================================
-- Claim C2
-- ============================================

/-- C2 as stated is false: it quantifies over every collection of progress
records, and with duplicate-titled records the cap can be exceeded.  With
dailyCap 1, a three-problem catalog, four progress records all titled "A"
(status learning) and one due review of "A", `introducedCount` is 4, so
`remainingNew = 3 − 4 = −1` and, with one effective day left,
`newPerDay = −1`; after the single due review fills the cap,
`slotsForNew = min(−1, 0) = −1` and `slice(0, −1)` on the two new problems
still yields one of them, so the queue holds 2 > 1 problems. -/
theorem spec_C2_cex :
    ((buildSpacedRepetitionQueue
      ⟨⟨"u", 1, 1, 10, 0⟩,
        [⟨"A", .learning, 50, 2, 1, none, some 0⟩, ⟨"A", .learning, 50, 2, 1, none, some 0⟩,
         ⟨"A", .learning, 50, 2, 1, none, some 0⟩, ⟨"A", .learning, 50, 2, 1, none, some 0⟩],
        [⟨"A", .learning, 50, 2, 1, none, some 0⟩], [],
        [⟨"A", Difficulty.easy, some "g"⟩, ⟨"B", Difficulty.easy, some "g"⟩,
         ⟨"C", Difficulty.easy, some "g"⟩],
        none, 0⟩).1.length : Int) = 2 ∧
    ¬(((buildSpacedRepetitionQueue
      ⟨⟨"u", 1, 1, 10, 0⟩,
        [⟨"A", .learning, 50, 2, 1, none, some 0⟩, ⟨"A", .learning, 50, 2, 1, none, some 0⟩,
         ⟨"A", .learning, 50, 2, 1, none, some 0⟩, ⟨"A", .learning, 50, 2, 1, none, some 0⟩],
        [⟨"A", .learning, 50, 2, 1, none, some 0⟩], [],
        [⟨"A", Difficulty.easy, some "g"⟩, ⟨"B", Difficulty.easy, some "g"⟩,
         ⟨"C", Difficulty.easy, some "g"⟩],
        none, 0⟩).1.length : Int) ≤ (1 : Int)) := by
  constructor <;> decide

/-- C2 amended: for every settings value with dailyCap ≥ 1, every
collection of progress records with pairwise-distinct problemTitles (which
the store, keyed by user and problem title, guarantees), every due set,
catalog and topic filter, the queue contains at most dailyCap problems. -/
theorem spec_C2 (inp : QueueInput) (hcap : 1 ≤ inp.settings.dailyCap)
    (hnd : (inp.allProgress.map (·.problemTitle)).Nodup) :
    ((buildSpacedRepetitionQueue inp).1.length : Int) ≤ inp.settings.dailyCap := by
  have hrem := remainingNew_nonneg inp hnd
  have heff : 0 < effectiveDaysLeftOf inp := by
    unfold effectiveDaysLeftOf
    omega
  have hnpd : 0 ≤ newPerDayOf inp := jsCeil_nonneg _ _ hrem heff
  have hduelen : (duePartOf inp).length ≤ inp.settings.dailyCap.toNat := by
    rw [duePart_eq_take]
    rw [List.length_take]
    omega
  have hslotle : slotsForNewOf inp ≤ inp.settings.dailyCap - (duePartOf inp).length :=
    min_le_right _ _
  have hslot0 : 0 ≤ slotsForNewOf inp := by
    unfold slotsForNewOf
    omega
  have hnewlen : (newPartOf inp).length ≤ (slotsForNewOf inp).toNat := by
    unfold newPartOf jsSlice
    rw [if_neg (by omega)]
    rw [List.length_take]
    omega
  have hq : (buildSpacedRepetitionQueue inp).1 = duePartOf inp ++ newPartOf inp := rfl
  rw [hq, List.length_append]
  push_cast
  omega

/-- Witness for the amended C2 at a concrete input: one-problem catalog, no
progress, default settings; the queue length is within the cap of 15. -/
theorem spec_C2_witness :
    ((buildSpacedRepetitionQueue
      ⟨⟨"u", 10, 15, 10, 0⟩, [], [], [], [⟨"A", Difficulty.easy, some "g"⟩],
        none, 0⟩).1.length : Int) ≤
      (QueueInput.mk ⟨"u", 10, 15, 10, 0⟩ [] [] [] [⟨"A", Difficulty.easy, some "g"⟩]
        none 0).settings.dailyCap :=
  spec_C2 ⟨⟨"u", 10, 15, 10, 0⟩, [], [], [], [⟨"A", Difficulty.easy, some "g"⟩], none, 0⟩
    (by decide) (by decide)

-- ============================================
-- Claim C3
-- ============================================

/-- C3: the queue is the due-review problems first, in the order of the due
set, truncated at the cap, followed by new problems only; every problem of
the new segment has no progress record; and whenever a due review is left
unqueued the review segment has already consumed the whole cap, so a new
problem is never taken while an unqueued due review would still fit. -/
theorem spec_C3 (inp : QueueInput) :
    (buildSpacedRepetitionQueue inp).1 = duePartOf inp ++ newPartOf inp ∧
    duePartOf inp = (duePoolOf inp).take inp.settings.dailyCap.toNat ∧
    (∀ p ∈ newPartOf inp, p.title ∉ progressTitles inp) ∧
    ((duePartOf inp).length < (duePoolOf inp).length →
      inp.settings.dailyCap ≤ ((duePartOf inp).length : Int)) := by
  refine ⟨rfl, duePart_eq_take inp, newPart_not_in_progress inp, ?_⟩
  intro hlt
  rw [duePart_eq_take] at hlt ⊢
  rw [List.length_take] at hlt ⊢
  omega

/-- Witness for C3 at a concrete input where a due review is left unqueued:
cap 1, two due reviews; the review segment already fills the cap. -/
theorem spec_C3_witness :
    (QueueInput.mk ⟨"u", 10, 1, 10, 0⟩
        [⟨"A", .learning, 50, 2, 1, none, some 0⟩, ⟨"B", .learning, 50, 2, 1, none, some 0⟩]
        [⟨"A", .learning, 50, 2, 1, none, some 0⟩, ⟨"B", .learning, 50, 2, 1, none, some 0⟩]
        [] [⟨"A", Difficulty.easy, some "g"⟩, ⟨"B", Difficulty.easy, some "g"⟩]
        none 0).settings.dailyCap ≤
      ((duePartOf
        ⟨⟨"u", 10, 1, 10, 0⟩,
          [⟨"A", .learning, 50, 2, 1, none, some 0⟩, ⟨"B", .learning, 50, 2, 1, none, some 0⟩],
          [⟨"A", .learning, 50, 2, 1, none, some 0⟩, ⟨"B", .learning, 50, 2, 1, none, some 0⟩],
          [], [⟨"A", Difficulty.easy, some "g"⟩, ⟨"B", Difficulty.easy, some "g"⟩],
          none, 0⟩).length : Int) :=
  (spec_C3 ⟨⟨"u", 10, 1, 10, 0⟩,
      [⟨"A", .learning, 50, 2, 1, none, some 0⟩, ⟨"B", .learning, 50, 2, 1, none, some 0⟩],
      [⟨"A", .learning, 50, 2, 1, none, some 0⟩, ⟨"B", .learning, 50, 2, 1, none, some 0⟩],
      [], [⟨"A", Difficulty.easy, some "g"⟩, ⟨"B", Difficulty.easy, some "g"⟩],
      none, 0⟩).2.2.2 (by decide)

-- ============================================
-- Claim C4
-- ============================================

/-- The 75-problem catalog of the C4 scenario. -/
def catalog75 : List BlindProblem :=
  List.replicate 75 ⟨"p", Difficulty.easy, some "g"⟩

/-- The C4 scenario input: targetDays 10, dailyCap 15, no attempts, no due
reviews, daysPassed 0. -/
def inp75 : QueueInput := ⟨⟨"u", 10, 15, 10, 0⟩, [], [], [], catalog75, none, 0⟩

/-- C4: the queue builder computes its pace exactly as the spec formulas
state — daysPassed as a mathematical floor of (now − startDate)/1 day,
daysLeft = max 1 (targetDays − daysPassed), a 2-day buffer, and newPerDay
as a mathematical ceiling of remainingNew/effectiveDaysLeft, where
remainingNew is the filtered-catalog size minus the progress records with
status ≠ new; and in the 75-problem scenario with targetDays 10, dailyCap
15, no attempts and daysPassed 0, newPerDay = ⌈75/8⌉ = 10, the queue is
exactly 10 new (never-attempted) problems, and stats.onPace is true. -/
theorem spec_C4 :
    (∀ inp : QueueInput,
      daysPassedOf inp = specDaysPassed inp.now inp.settings.startDate ∧
      daysLeftOf inp = max 1 (inp.settings.targetDays - daysPassedOf inp) ∧
      effectiveDaysLeftOf inp = max 1 (daysLeftOf inp - 2) ∧
      remainingNewOf inp = ((filteredProblems inp).length : Int) -
        ((((filteredProgressOf inp).filter fun p =>
            p.status != ProblemStatus.new).length : Nat) : Int) ∧
      newPerDayOf inp = specCeilDiv (remainingNewOf inp) (effectiveDaysLeftOf inp)) ∧
    newPerDayOf inp75 = 10 ∧
    (buildSpacedRepetitionQueue inp75).1.length = 10 ∧
    ((buildSpacedRepetitionQueue inp75).1.all fun p =>
      !(progressTitles inp75).contains p.title) = true ∧
    (buildSpacedRepetitionQueue inp75).2.onPace = true := by
  constructor
  · intro inp
    refine ⟨?_, rfl, rfl, rfl, ?_⟩
    · unfold daysPassedOf specDaysPassed
      rw [floor_ratCast_div_eq_ediv _ _ (by norm_num [msPerDay])]
    · have hpos : 0 < effectiveDaysLeftOf inp := by
        unfold effectiveDaysLeftOf
        omega
      unfold specCeilDiv
      rw [ceil_ratCast_div_eq_jsCeil _ _ hpos]
      rfl
  · refine ⟨by decide, by decide, by decide, ?_⟩
    have hdp : daysPassedOf inp75 = 0 := by decide
    rw [show (buildSpacedRepetitionQueue inp75).2.onPace = onPaceOf inp75 from rfl]
    unfold onPaceOf
    rw [hdp]
    simp only [decide_eq_true_eq, Int.cast_zero, zero_mul, ge_iff_le]
    positivity

-- ============================================
-- Claim C10: supporting lemmas
-- ============================================

theorem findTitles_mem (catalog : List BlindProblem) (recs : List UserProblemProgress) :
    ∀ t ∈ ((recs.filterMap fun r => catalog.find? fun p => p.title == r.problemTitle).map
      fun p => p.title), t ∈ recs.map fun r => r.problemTitle := by
  intro t ht
  rw [List.mem_map] at ht
  obtain ⟨p, hp, hpt⟩ := ht
  rw [List.mem_filterMap] at hp
  obtain ⟨r, hr, hfind⟩ := hp
  have hb := List.find?_some hfind
  rw [beq_iff_eq] at hb
  exact List.mem_map.mpr ⟨r, hr, by rw [← hb, hpt]⟩

theorem findTitles_nodup (catalog : List BlindProblem) :
    ∀ recs : List UserProblemProgress, (recs.map fun r => r.problemTitle).Nodup →
      (((recs.filterMap fun r => catalog.find? fun p => p.title == r.problemTitle).map
        fun p => p.title)).Nodup := by
  intro recs
  induction recs with
  | nil => intro h; simp
  | cons r rest ih =>
      intro hnd
      rw [List.map_cons, List.nodup_cons] at hnd
      rcases hfind : catalog.find? fun p => p.title == r.problemTitle with _ | p
      · simp only [List.filterMap_cons, hfind]
        exact ih hnd.2
      · simp only [List.filterMap_cons, hfind]
        rw [List.map_cons, List.nodup_cons]
        refine ⟨fun hmem => ?_, ih hnd.2⟩
        have hb := List.find?_some hfind
        rw [beq_iff_eq] at hb
        have hsub := findTitles_mem catalog rest p.title hmem
        rw [hb] at hsub
        exact hnd.1 hsub

theorem filteredProblems_sublist (inp : QueueInput) :
    (filteredProblems inp).Sublist inp.catalog := by
  unfold filteredProblems
  split
  · split
    · exact List.filter_sublist _
    · exact List.Sublist.refl _
  · exact List.Sublist.refl _

theorem newPart_sublist_sorted (inp : QueueInput) :
    (newPartOf inp).Sublist (newProblemsSortedOf inp) := by
  unfold newPartOf jsSlice
  split
  · exact List.take_sublist _ _
  · exact List.take_sublist _ _

-- ============================================
-- Claim C10
-- ============================================

/-- C10: with pairwise-distinct catalog titles, pairwise-distinct progress
titles, pairwise-distinct due-set titles, and every due record backed by a
progress record (the due set is a filtered subset of the progress of the
user),
the queue contains no problem twice: every queued due-review problem has
an existing progress record, every queued new problem has none, and the
title list of the queue is duplicate-free. -/
theorem spec_C10 (inp : QueueInput)
    (hcat : (inp.catalog.map fun p => p.title).Nodup)
    (hprog : (inp.allProgress.map fun r => r.problemTitle).Nodup)
    (hdue : (inp.dueReviews.map fun r => r.problemTitle).Nodup)
    (hsub : ∀ r ∈ inp.dueReviews, r.problemTitle ∈ progressTitles inp) :
    (((buildSpacedRepetitionQueue inp).1.map fun p => p.title)).Nodup ∧
    (∀ p ∈ duePartOf inp, p.title ∈ progressTitles inp) ∧
    (∀ p ∈ newPartOf inp, p.title ∉ progressTitles inp) := by
  have hrecs_sub : (((inp.dueReviews.filter fun p =>
      (filteredProblems inp).any fun prob => prob.title == p.problemTitle).filter
      fun p => p.reviewsCompleted < p.reviewsNeeded)).Sublist inp.dueReviews :=
    (List.filter_sublist _).trans (List.filter_sublist _)
  have hrecs_nd : ((((inp.dueReviews.filter fun p =>
      (filteredProblems inp).any fun prob => prob.title == p.problemTitle).filter
      fun p => p.reviewsCompleted < p.reviewsNeeded)).map
      fun r => r.problemTitle).Nodup :=
    hdue.sublist (hrecs_sub.map _)
  have hpool_nd : (((duePoolOf inp).map fun p => p.title)).Nodup :=
    findTitles_nodup (filteredProblems inp) _ hrecs_nd
  have hpool_mem : ∀ t ∈ (duePoolOf inp).map (fun p => p.title), t ∈ progressTitles inp := by
    intro t ht
    have h1 := findTitles_mem (filteredProblems inp) _ t ht
    rw [List.mem_map] at h1
    obtain ⟨r, hr, hrt⟩ := h1
    rw [← hrt]
    exact hsub r (hrecs_sub.subset hr)
  have hduepart_sub : (duePartOf inp).Sublist (duePoolOf inp) := by
    rw [duePart_eq_take]
    exact List.take_sublist _ _
  have hduepart_nd : (((duePartOf inp).map fun p => p.title)).Nodup :=
    hpool_nd.sublist (hduepart_sub.map _)
  have hduepart_mem : ∀ p ∈ duePartOf inp, p.title ∈ progressTitles inp := fun p hp =>
    hpool_mem p.title (List.mem_map.mpr ⟨p, hduepart_sub.subset hp, rfl⟩)
  have hsortnd : (((newProblemsSortedOf inp).map fun p => p.title)).Nodup := by
    have hperm := (sortByDifficulty_perm ((filteredProblems inp).filter fun p =>
      !(progressTitles inp).contains p.title)).map fun p => p.title
    unfold newProblemsSortedOf
    rw [hperm.nodup_iff]
    refine hcat.sublist ?_
    exact List.Sublist.map _ ((List.filter_sublist _).trans (filteredProblems_sublist inp))
  have hnewnd : (((newPartOf inp).map fun p => p.title)).Nodup :=
    hsortnd.sublist ((newPart_sublist_sorted inp).map _)
  refine ⟨?_, hduepart_mem, newPart_not_in_progress inp⟩
  rw [show (buildSpacedRepetitionQueue inp).1 = duePartOf inp ++ newPartOf inp from rfl,
    List.map_append, List.nodup_append]
  refine ⟨hduepart_nd, hnewnd, ?_⟩
  intro t ht hmem2
  have h1 : t ∈ progressTitles inp := by
    rw [List.mem_map] at ht
    obtain ⟨p, hp, hpt⟩ := ht
    rw [← hpt]
    exact hduepart_mem p hp
  rw [List.mem_map] at hmem2
  obtain ⟨p, hp, hpt⟩ := hmem2
  rw [← hpt] at h1
  exact newPart_not_in_progress inp p hp h1

/-- Witness for C10 at a concrete input: two distinct catalog problems, two
distinct progress records both due; the queue titles are duplicate-free and
the two segments land on the right side of the progress map. -/
theorem spec_C10_witness :
    (((buildSpacedRepetitionQueue
      ⟨⟨"u", 10, 15, 10, 0⟩,
        [⟨"A", .learning, 50, 2, 1, none, some 0⟩, ⟨"B", .learning, 50, 2, 1, none, some 0⟩],
        [⟨"A", .learning, 50, 2, 1, none, some 0⟩, ⟨"B", .learning, 50, 2, 1, none, some 0⟩],
        [], [⟨"A", Difficulty.easy, some "g"⟩, ⟨"B", Difficulty.easy, some "g"⟩],
        none, 0⟩).1.map fun p => p.title)).Nodup ∧
    (∀ p ∈ duePartOf
      ⟨⟨"u", 10, 15, 10, 0⟩,
        [⟨"A", .learning, 50, 2, 1, none, some 0⟩, ⟨"B", .learning, 50, 2, 1, none, some 0⟩],
        [⟨"A", .learning, 50, 2, 1, none, some 0⟩, ⟨"B", .learning, 50, 2, 1, none, some 0⟩],
        [], [⟨"A", Difficulty.easy, some "g"⟩, ⟨"B", Difficulty.easy, some "g"⟩],
        none, 0⟩, p.title ∈ progressTitles
      ⟨⟨"u", 10, 15, 10, 0⟩,
        [⟨"A", .learning, 50, 2, 1, none, some 0⟩, ⟨"B", .learning, 50, 2, 1, none, some 0⟩],
        [⟨"A", .learning, 50, 2, 1, none, some 0⟩, ⟨"B", .learning, 50, 2, 1, none, some 0⟩],
        [], [⟨"A", Difficulty.easy, some "g"⟩, ⟨"B", Difficulty.easy, some "g"⟩],
        none, 0⟩) ∧
    (∀ p ∈ newPartOf
      ⟨⟨"u", 10, 15, 10, 0⟩,
        [⟨"A", .learning, 50, 2, 1, none, some 0⟩, ⟨"B", .learning, 50, 2, 1, none, some 0⟩],
        [⟨"A", .learning, 50, 2, 1, none, some 0⟩, ⟨"B", .learning, 50, 2, 1, none, some 0⟩],
        [], [⟨"A", Difficulty.easy, some "g"⟩, ⟨"B", Difficulty.easy, some "g"⟩],
        none, 0⟩, p.title ∉ progressTitles
      ⟨⟨"u", 10, 15, 10, 0⟩,
        [⟨"A", .learning, 50, 2, 1, none, some 0⟩, ⟨"B", .learning, 50, 2, 1, none, some 0⟩],
        [⟨"A", .learning, 50, 2, 1, none, some 0⟩, ⟨"B", .learning, 50, 2, 1, none, some 0⟩],
        [], [⟨"A", Difficulty.easy, some "g"⟩, ⟨"B", Difficulty.easy, some "g"⟩],
        none, 0⟩) :=
  spec_C10
    ⟨⟨"u", 10, 15, 10, 0⟩,
      [⟨"A", .learning, 50, 2, 1, none, some 0⟩, ⟨"B", .learning, 50, 2, 1, none, some 0⟩],
      [⟨"A", .learning, 50, 2, 1, none, some 0⟩, ⟨"B", .learning, 50, 2, 1, none, some 0⟩],
      [], [⟨"A", Difficulty.easy, some "g"⟩, ⟨"B", Difficulty.easy, some "g"⟩],
      none, 0⟩
    (by decide) (by decide) (by decide) (by decide)
